/-
Verification of the validation, authorization-gating and dispatch layer of the
strapi-mcp-server repository (src/index.ts, version 2.6.0).

The TypeScript source is shallowly embedded: JSON values become an inductive
`Json` (numbers are modelled as integers — every number the program inspects is
an integer), the Zod tool schemas become explicit parse functions returning
`Except (List ZodIssue) _`, the HTTP layer is a `Backend` record of response
functions, and every outbound call is counted in an `Effects` record so that
"no network I/O happens" is a provable statement.
-/
import Mathlib

/-- JSON values.  Numbers are modelled as integers: every numeric value the
program's decision logic inspects (page, pageSize, quality, HTTP status) is an
integer, and the claims never involve fractional numbers. -/
inductive Json where
  | null : Json
  | bool (b : Bool) : Json
  | num (n : Int) : Json
  | str (s : String) : Json
  | arr (elems : List Json) : Json
  | obj (fields : List (String × Json)) : Json

/-- Property lookup on a JS object (`o[k]`); `none` models `undefined`.
JS object keys are unique, so first-match lookup is faithful. -/
def Json.getField : Json → String → Option Json
  | .obj fields, k => lookupFields fields k
  | _, _ => none
where
  lookupFields : List (String × Json) → String → Option Json
  | [], _ => none
  | (k', v) :: rest, k => if k' = k then some v else lookupFields rest k

/-- Key list of a JS object (`Object.keys`). -/
def Json.objKeys : Json → List String
  | .obj fields => fields.map Prod.fst
  | _ => []

/-- The `typeof`-style type name Zod reports for a JSON value. -/
def Json.typeName : Json → String
  | .null => "null"
  | .bool _ => "boolean"
  | .num _ => "number"
  | .str _ => "string"
  | .arr _ => "array"
  | .obj _ => "object"

/-- JS truthiness of a JSON value. -/
def Json.jsTruthy : Json → Bool
  | .null => false
  | .bool b => b
  | .num n => n != 0
  | .str s => s != ""
  | .arr _ => true
  | .obj _ => true

/-- `parseInt(str)`: skip leading whitespace, optional sign, then decimal
digits; `none` models `NaN`.  (The automatic hexadecimal `0x` prefix of JS
`parseInt` is not modelled; no input of this program is a hex literal.) -/
def parseIntJS (s : String) : Option Int :=
  let cs := s.data.dropWhile fun c => c = ' ' ∨ c = '\t' ∨ c = '\n' ∨ c = '\r'
  let signAndRest : Int × List Char :=
    match cs with
    | '-' :: r => (-1, r)
    | '+' :: r => (1, r)
    | r => (1, r)
  let digits := signAndRest.2.takeWhile Char.isDigit
  if digits.isEmpty then none
  else
    some (signAndRest.1 *
      (digits.foldl (fun acc c => acc * 10 + (c.toNat - 48)) 0 : Nat))

/-- `s.split(c)` on character lists. -/
def splitOnCharList (c : Char) : List Char → List (List Char)
  | [] => [[]]
  | x :: xs =>
      let rest := splitOnCharList c xs
      if x = c then [] :: rest
      else
        match rest with
        | h :: t => (x :: h) :: t
        | [] => [[x]]

/-- `s.split(c)` for a single-character separator. -/
def splitOnChar (c : Char) (s : String) : List String :=
  (splitOnCharList c s.data).map String.mk

/-- Escape a string as a JSON string literal (used by `JSON.stringify`).
Only the escapes for quote and backslash are modelled. -/
def jsonStringLit (s : String) : String :=
  "\"" ++ s.data.foldl (fun acc c =>
    if c = '"' then acc ++ "\\\""
    else if c = '\\' then acc ++ "\\\\"
    else acc.push c) "" ++ "\""

mutual
/-- Compact `JSON.stringify` (no spacing argument). -/
def jsonStringify : Json → String
  | .null => "null"
  | .bool b => if b then "true" else "false"
  | .num n => toString n
  | .str s => jsonStringLit s
  | .arr xs => "[" ++ jsonStringifyArr xs ++ "]"
  | .obj fs => "\x7b" ++ jsonStringifyObj fs ++ "\x7d"

def jsonStringifyArr : List Json → String
  | [] => ""
  | [x] => jsonStringify x
  | x :: y :: xs => jsonStringify x ++ "," ++ jsonStringifyArr (y :: xs)

def jsonStringifyObj : List (String × Json) → String
  | [] => ""
  | [(k, v)] => jsonStringLit k ++ ":" ++ jsonStringify v
  | (k, v) :: f :: fs =>
      jsonStringLit k ++ ":" ++ jsonStringify v ++ "," ++ jsonStringifyObj (f :: fs)
end

/-- `String(v)` / template-literal coercion of a JSON value. -/
def Json.jsDisplay : Json → String
  | .null => "null"
  | .bool b => if b then "true" else "false"
  | .num n => toString n
  | .str s => s
  | .arr xs => String.intercalate "," (xs.map jsonStringify)
  | .obj _ => "[object Object]"

/-! ### JSON.parse

A fuel-based recursive-descent parser modelling `JSON.parse` on the inputs this
program can meet.  Model restrictions (each makes the parser reject, never
mis-parse): numbers are integers (no fraction/exponent part) and `\u` string
escapes are not supported. -/

/-- Parse the body of a JSON string literal after the opening quote. -/
def parseJsonString : List Char → String → Option (String × List Char)
  | [], _ => none
  | '"' :: rest, acc => some (acc, rest)
  | '\\' :: c :: rest, acc =>
      if c = '"' then parseJsonString rest (acc.push '"')
      else if c = '\\' then parseJsonString rest (acc.push '\\')
      else if c = '/' then parseJsonString rest (acc.push '/')
      else if c = 'n' then parseJsonString rest (acc.push '\n')
      else if c = 't' then parseJsonString rest (acc.push '\t')
      else if c = 'r' then parseJsonString rest (acc.push '\r')
      else none
  | '\\' :: [], _ => none
  | c :: rest, acc => parseJsonString rest (acc.push c)

/-- Skip JSON whitespace. -/
def skipJsonWs (cs : List Char) : List Char :=
  cs.dropWhile fun c => c = ' ' ∨ c = '\t' ∨ c = '\n' ∨ c = '\r'

/-- Leading decimal digit run as a number. -/
def parseJsonDigits (cs : List Char) : Option (Nat × List Char) :=
  let digits := cs.takeWhile Char.isDigit
  if digits.isEmpty then none
  else some (digits.foldl (fun acc c => acc * 10 + (c.toNat - 48)) 0,
             cs.drop digits.length)

mutual
def parseJsonValue : Nat → List Char → Option (Json × List Char)
  | 0, _ => none
  | fuel + 1, cs =>
    match skipJsonWs cs with
    | 'n' :: 'u' :: 'l' :: 'l' :: rest => some (.null, rest)
    | 't' :: 'r' :: 'u' :: 'e' :: rest => some (.bool true, rest)
    | 'f' :: 'a' :: 'l' :: 's' :: 'e' :: rest => some (.bool false, rest)
    | '"' :: rest =>
        match parseJsonString rest "" with
        | some (s, rest') => some (.str s, rest')
        | none => none
    | '-' :: rest =>
        match parseJsonDigits rest with
        | some (n, rest') => some (.num (-(n : Int)), rest')
        | none => none
    | '[' :: rest => parseJsonArr fuel (skipJsonWs rest)
    | '\x7b' :: rest => parseJsonObj fuel (skipJsonWs rest)
    | c :: rest =>
        if c.isDigit then
          match parseJsonDigits (c :: rest) with
          | some (n, rest') => some (.num (n : Int), rest')
          | none => none
        else none
    | [] => none

def parseJsonArr : Nat → List Char → Option (Json × List Char)
  | 0, _ => none
  | fuel + 1, cs =>
    match cs with
    | ']' :: rest => some (.arr [], rest)
    | _ =>
      match parseJsonValue fuel cs with
      | some (v, rest) => parseJsonArrTail fuel [v] (skipJsonWs rest)
      | none => none

def parseJsonArrTail : Nat → List Json → List Char → Option (Json × List Char)
  | 0, _, _ => none
  | fuel + 1, acc, cs =>
    match cs with
    | ']' :: rest => some (.arr acc.reverse, rest)
    | ',' :: rest =>
      match parseJsonValue fuel rest with
      | some (v, rest') => parseJsonArrTail fuel (v :: acc) (skipJsonWs rest')
      | none => none
    | _ => none

def parseJsonObj : Nat → List Char → Option (Json × List Char)
  | 0, _ => none
  | fuel + 1, cs =>
    match cs with
    | '\x7d' :: rest => some (.obj [], rest)
    | _ => parseJsonObjTail fuel [] cs

def parseJsonObjTail : Nat → List (String × Json) → List Char →
    Option (Json × List Char)
  | 0, _, _ => none
  | fuel + 1, acc, cs =>
    match skipJsonWs cs with
    | '"' :: rest =>
      match parseJsonString rest "" with
      | some (k, rest') =>
        match skipJsonWs rest' with
        | ':' :: rest'' =>
          match parseJsonValue fuel rest'' with
          | some (v, rest''') =>
            match skipJsonWs rest''' with
            | ',' :: more => parseJsonObjTail fuel ((k, v) :: acc) more
            | '\x7d' :: more => some (.obj ((k, v) :: acc).reverse, more)
            | _ => none
          | none => none
        | _ => none
      | none => none
    | _ => none
end

/-- `JSON.parse`: parse the whole string as one JSON value. -/
def jsonParseJS (s : String) : Option Json :=
  match parseJsonValue (s.length + 1) s.data with
  | some (j, rest) => if (skipJsonWs rest).isEmpty then some j else none
  | none => none

/-! ### Zod validation layer

Each tool schema of `src/index.ts` becomes an explicit parse function.  The
embedding follows Zod's observable behaviour: per-field parsing in shape-key
order accumulating issues, `.strict()` unknown-key rejection after the shape
keys, and `.refine` cross-field rules that run only on an otherwise valid
object.  (Zod also runs refinements on "dirty" parses whose field issues were
non-fatal; that only appends the refine issue to an already failing issue list
and is not modelled.) -/

/-- Machine-readable Zod issue codes produced by the schemas of this program. -/
inductive ZodCode where
  | invalid_type
  | too_small
  | too_big
  | custom
  | invalid_enum_value
  | invalid_string
  | invalid_union
  | unrecognized_keys
deriving DecidableEq, Repr

/-- One Zod validation issue: field path, human message, machine code. -/
structure ZodIssue where
  path : List String
  message : String
  code : ZodCode
deriving DecidableEq, Repr

/-- The issue list of a failed field parse (empty for a successful one). -/
def fieldErrs {α : Type} : Except (List ZodIssue) α → List ZodIssue
  | .error es => es
  | .ok _ => []

/-- `.strict()`: one `unrecognized_keys` issue when the input object has keys
outside the schema shape. -/
def strictKeysCheck (fields : List (String × Json)) (allowed : List String) :
    List ZodIssue :=
  let extra := (fields.map Prod.fst).filter fun k => ¬ allowed.contains k
  if extra.isEmpty then []
  else [⟨[], "Unrecognized key(s) in object: " ++
          String.intercalate ", " (extra.map fun k => "\x27" ++ k ++ "\x27"),
        .unrecognized_keys⟩]

/-- `z.string().min(1, msg)` on a required field. -/
def parseRequiredString (field tooSmallMsg : String) (v : Option Json) :
    Except (List ZodIssue) String :=
  match v with
  | none => .error [⟨[field], "Required", .invalid_type⟩]
  | some (.str s) =>
      if s.length ≥ 1 then .ok s
      else .error [⟨[field], tooSmallMsg, .too_small⟩]
  | some other =>
      .error [⟨[field], "Expected string, received " ++ other.typeName,
              .invalid_type⟩]

/-- `z.union([z.number().int().min(1, msg), z.string().transform(parseInt …)])
.optional().default(dflt)` — the shared shape of the `page` and `pageSize`
fields of GetComponentsSchema.  A string is run through `parseInt`; `NaN` or a
value `< 1` adds a `custom` issue with the same message. -/
def parsePositiveIntField (field msg : String) (dflt : Int) (v : Option Json) :
    Except (List ZodIssue) Int :=
  match v with
  | none => .ok dflt
  | some (.num n) =>
      -- number branch: `.int()` always holds (numbers are modelled as
      -- integers); `.min(1)` failure is a non-fatal `too_small` issue that
      -- wins the union as the first dirty result.
      if 1 ≤ n then .ok n else .error [⟨[field], msg, .too_small⟩]
  | some (.str s) =>
      match parseIntJS s with
      | some n => if 1 ≤ n then .ok n else .error [⟨[field], msg, .custom⟩]
      | none => .error [⟨[field], msg, .custom⟩]
  | some _ => .error [⟨[field], "Invalid input", .invalid_union⟩]

/-- `z.union([z.number().int().min(1, m).max(100, m), z.string().transform …])
.optional().default(80)` — the `quality` field of UploadMediaSchema. -/
def parseQualityField (v : Option Json) : Except (List ZodIssue) Int :=
  let msg := "Quality must be between 1 and 100"
  match v with
  | none => .ok 80
  | some (.num n) =>
      if n < 1 then .error [⟨["quality"], msg, .too_small⟩]
      else if 100 < n then .error [⟨["quality"], msg, .too_big⟩]
      else .ok n
  | some (.str s) =>
      match parseIntJS s with
      | some n =>
          if n < 1 ∨ 100 < n then .error [⟨["quality"], msg, .custom⟩]
          else .ok n
      | none => .error [⟨["quality"], msg, .custom⟩]
  | some _ => .error [⟨["quality"], "Invalid input", .invalid_union⟩]

/-- `z.union([z.boolean(), z.string().transform("true"/"false" …)])
.optional().default(false)` — the `userAuthorized` field of RestSchema and
UploadMediaSchema. -/
def parseUserAuthorizedField (v : Option Json) : Except (List ZodIssue) Bool :=
  match v with
  | none => .ok false
  | some (.bool b) => .ok b
  | some (.str s) =>
      if s = "true" then .ok true
      else if s = "false" then .ok false
      else .error [⟨["userAuthorized"],
        "userAuthorized must be boolean true/false or string \x27true\x27/\x27false\x27",
        .custom⟩]
  | some _ => .error [⟨["userAuthorized"], "Invalid input", .invalid_union⟩]

/-- HTTP methods accepted by RestSchema. -/
inductive Method where
  | GET | POST | PUT | DELETE
deriving DecidableEq, Repr

/-- The method name string used in URLs, logs and error messages. -/
def Method.str : Method → String
  | .GET => "GET"
  | .POST => "POST"
  | .PUT => "PUT"
  | .DELETE => "DELETE"

/-- `["POST", "PUT", "DELETE"].includes(method)` — the write-operation test
used both by RestSchema's refine rule and by makeRestRequest. -/
def isWriteMethod (m : Method) : Bool :=
  m == .POST || m == .PUT || m == .DELETE

/-- `z.enum(["GET","POST","PUT","DELETE"]).optional().default("GET")` with the
custom error map of RestSchema. -/
def parseMethodField (v : Option Json) : Except (List ZodIssue) Method :=
  let msg := "Method must be one of: GET, POST, PUT, DELETE"
  match v with
  | none => .ok .GET
  | some (.str s) =>
      if s = "GET" then .ok .GET
      else if s = "POST" then .ok .POST
      else if s = "PUT" then .ok .PUT
      else if s = "DELETE" then .ok .DELETE
      else .error [⟨["method"], msg, .invalid_enum_value⟩]
  | some _ => .error [⟨["method"], msg, .invalid_type⟩]

/-- `z.union([z.record(z.any()), z.string().transform(JSON.parse …)])
.optional()` — the `params` and `body` fields of RestSchema.  The transform's
output is not re-validated, so a string parses to whatever JSON it holds. -/
def parseRecordOrJsonString (field msg : String) (v : Option Json) :
    Except (List ZodIssue) (Option Json) :=
  match v with
  | none => .ok none
  | some (.obj fs) => .ok (some (.obj fs))
  | some (.str s) =>
      match jsonParseJS s with
      | some j => .ok (some j)
      | none => .error [⟨[field], msg, .custom⟩]
  | some _ => .error [⟨[field], "Invalid input", .invalid_union⟩]

/-- Split a character list at the first occurrence of `://`. -/
def splitSchemeRest : List Char → Option (List Char × List Char)
  | [] => none
  | ':' :: '/' :: '/' :: rest => some ([], rest)
  | c :: rest =>
      match splitSchemeRest rest with
      | some (a, b) => some (c :: a, b)
      | none => none

/-- A rough model of the WHATWG-URL validity test behind `z.string().url()`:
a non-empty alphabetic scheme followed by `://` and a non-empty remainder.
No claim depends on URL edge cases. -/
def urlValidJS (s : String) : Bool :=
  match splitSchemeRest s.data with
  | some (scheme, rest) =>
      scheme.length > 0 && scheme.all (fun c => c.isAlpha) && rest.length > 0
  | none => false

/-- `z.string().url("Must be a valid URL")` on the required `url` field. -/
def parseUrlField (v : Option Json) : Except (List ZodIssue) String :=
  match v with
  | none => .error [⟨["url"], "Required", .invalid_type⟩]
  | some (.str s) =>
      if urlValidJS s then .ok s
      else .error [⟨["url"], "Must be a valid URL", .invalid_string⟩]
  | some other =>
      .error [⟨["url"], "Expected string, received " ++ other.typeName,
              .invalid_type⟩]

/-- `z.enum(["jpeg","png","webp","original"]).optional().default("original")`.
-/
inductive MediaFormat where
  | jpeg | png | webp | original
deriving DecidableEq, Repr

def MediaFormat.str : MediaFormat → String
  | .jpeg => "jpeg"
  | .png => "png"
  | .webp => "webp"
  | .original => "original"

def parseFormatField (v : Option Json) : Except (List ZodIssue) MediaFormat :=
  let msg := "Format must be one of: jpeg, png, webp, original"
  match v with
  | none => .ok .original
  | some (.str s) =>
      if s = "jpeg" then .ok .jpeg
      else if s = "png" then .ok .png
      else if s = "webp" then .ok .webp
      else if s = "original" then .ok .original
      else .error [⟨["format"], msg, .invalid_enum_value⟩]
  | some _ => .error [⟨["format"], msg, .invalid_type⟩]

/-- MediaMetadataSchema: strict object of four optional strings. -/
structure MediaMetadata where
  name : Option String
  caption : Option String
  alternativeText : Option String
  description : Option String
deriving DecidableEq, Repr

/-- `z.string().optional()` at path `["metadata", field]`. -/
def parseOptionalString (field : String) (v : Option Json) :
    Except (List ZodIssue) (Option String) :=
  match v with
  | none => .ok none
  | some (.str s) => .ok (some s)
  | some other =>
      .error [⟨["metadata", field],
              "Expected string, received " ++ other.typeName, .invalid_type⟩]

/-- `MediaMetadataSchema.optional()` — the `metadata` field. -/
def parseMetadataField (v : Option Json) :
    Except (List ZodIssue) (Option MediaMetadata) :=
  match v with
  | none => .ok none
  | some (.obj fs) =>
      let name := parseOptionalString "name" (Json.getField (.obj fs) "name")
      let caption := parseOptionalString "caption" (Json.getField (.obj fs) "caption")
      let alternativeText :=
        parseOptionalString "alternativeText" (Json.getField (.obj fs) "alternativeText")
      let description :=
        parseOptionalString "description" (Json.getField (.obj fs) "description")
      let extras := (strictKeysCheck fs
          ["name", "caption", "alternativeText", "description"]).map
        fun i => { i with path := "metadata" :: i.path }
      match name, caption, alternativeText, description, extras with
      | .ok n, .ok c, .ok a, .ok d, [] => .ok (some ⟨n, c, a, d⟩)
      | n, c, a, d, ex =>
          .error (fieldErrs n ++ fieldErrs c ++ fieldErrs a ++ fieldErrs d ++ ex)
  | some other =>
      .error [⟨["metadata"],
              "Expected object, received " ++ other.typeName, .invalid_type⟩]

/-! ### Per-tool schemas -/

/-- Validated GetContentTypes input. -/
structure GetContentTypesInput where
  server : String
deriving DecidableEq, Repr

/-- Validated GetComponents input (defaults applied). -/
structure GetComponentsInput where
  server : String
  page : Int
  pageSize : Int
deriving DecidableEq, Repr

/-- Validated Rest input (defaults applied, before the refine rule). -/
structure RestInput where
  server : String
  endpoint : String
  method : Method
  params : Option Json
  body : Option Json
  userAuthorized : Bool

/-- Validated UploadMedia input (defaults applied, before the refine rule). -/
structure UploadMediaInput where
  server : String
  url : String
  format : MediaFormat
  quality : Int
  metadata : Option MediaMetadata
  userAuthorized : Bool

/-- Root issue of a Zod object schema applied to a non-object. -/
def rootTypeIssue (j : Json) : List ZodIssue :=
  [⟨[], "Expected object, received " ++ j.typeName, .invalid_type⟩]

/-- `ListServersSchema = z.object({}).strict()`. -/
def ListServersSchema_parse (j : Json) : Except (List ZodIssue) Unit :=
  match j with
  | .obj fields =>
      match strictKeysCheck fields [] with
      | [] => .ok ()
      | es => .error es
  | other => .error (rootTypeIssue other)

/-- `GetContentTypesSchema`. -/
def GetContentTypesSchema_parse (j : Json) :
    Except (List ZodIssue) GetContentTypesInput :=
  match j with
  | .obj fields =>
      let server := parseRequiredString "server"
        "Server name is required and cannot be empty" (Json.getField (.obj fields) "server")
      let extras := strictKeysCheck fields ["server"]
      match server, extras with
      | .ok s, [] => .ok ⟨s⟩
      | s, ex => .error (fieldErrs s ++ ex)
  | other => .error (rootTypeIssue other)

/-- `GetComponentsSchema`. -/
def GetComponentsSchema_parse (j : Json) :
    Except (List ZodIssue) GetComponentsInput :=
  match j with
  | .obj fields =>
      let server := parseRequiredString "server"
        "Server name is required and cannot be empty" (Json.getField (.obj fields) "server")
      let page := parsePositiveIntField "page"
        "Page must be a positive integer" 1 (Json.getField (.obj fields) "page")
      let pageSize := parsePositiveIntField "pageSize"
        "Page size must be a positive integer" 25 (Json.getField (.obj fields) "pageSize")
      let extras := strictKeysCheck fields ["server", "page", "pageSize"]
      match server, page, pageSize, extras with
      | .ok s, .ok p, .ok ps, [] => .ok ⟨s, p, ps⟩
      | s, p, ps, ex =>
          .error (fieldErrs s ++ fieldErrs p ++ fieldErrs ps ++ ex)
  | other => .error (rootTypeIssue other)

/-- The object part of RestSchema (before `.refine`). -/
def RestSchema_parseFields (j : Json) : Except (List ZodIssue) RestInput :=
  match j with
  | .obj fields =>
      let server := parseRequiredString "server"
        "Server name is required and cannot be empty" (Json.getField (.obj fields) "server")
      let endpoint := parseRequiredString "endpoint"
        "Endpoint is required and cannot be empty" (Json.getField (.obj fields) "endpoint")
      let method := parseMethodField (Json.getField (.obj fields) "method")
      let params := parseRecordOrJsonString "params"
        "Params must be a valid JSON object or object" (Json.getField (.obj fields) "params")
      let body := parseRecordOrJsonString "body"
        "Body must be a valid JSON object or object" (Json.getField (.obj fields) "body")
      let userAuthorized :=
        parseUserAuthorizedField (Json.getField (.obj fields) "userAuthorized")
      let extras := strictKeysCheck fields
        ["server", "endpoint", "method", "params", "body", "userAuthorized"]
      match server, endpoint, method, params, body, userAuthorized, extras with
      | .ok s, .ok e, .ok m, .ok p, .ok b, .ok ua, [] =>
          .ok ⟨s, e, m, p, b, ua⟩
      | s, e, m, p, b, ua, ex =>
          .error (fieldErrs s ++ fieldErrs e ++ fieldErrs m ++ fieldErrs p ++
                  fieldErrs b ++ fieldErrs ua ++ ex)
  | other => .error (rootTypeIssue other)

/-- The cross-field refine rule of RestSchema: write operations must carry
explicit user authorization. -/
def restRefineCheck (r : RestInput) : Bool :=
  if isWriteMethod r.method && !r.userAuthorized then false else true

/-- The message/path of RestSchema's refine failure. -/
def restRefineIssue : ZodIssue :=
  ⟨["userAuthorized"],
   "Write operations (POST, PUT, DELETE) require explicit user authorization (userAuthorized: true)",
   .custom⟩

/-- Full `RestSchema.parse`: object shape, `.strict()`, then `.refine`. -/
def RestSchema_parse (j : Json) : Except (List ZodIssue) RestInput :=
  match RestSchema_parseFields j with
  | .error es => .error es
  | .ok r => if restRefineCheck r then .ok r else .error [restRefineIssue]

/-- The object part of UploadMediaSchema (before `.refine`). -/
def UploadMediaSchema_parseFields (j : Json) :
    Except (List ZodIssue) UploadMediaInput :=
  match j with
  | .obj fields =>
      let server := parseRequiredString "server"
        "Server name is required and cannot be empty" (Json.getField (.obj fields) "server")
      let url := parseUrlField (Json.getField (.obj fields) "url")
      let format := parseFormatField (Json.getField (.obj fields) "format")
      let quality := parseQualityField (Json.getField (.obj fields) "quality")
      let metadata := parseMetadataField (Json.getField (.obj fields) "metadata")
      let userAuthorized :=
        parseUserAuthorizedField (Json.getField (.obj fields) "userAuthorized")
      let extras := strictKeysCheck fields
        ["server", "url", "format", "quality", "metadata", "userAuthorized"]
      match server, url, format, quality, metadata, userAuthorized, extras with
      | .ok s, .ok u, .ok f, .ok q, .ok md, .ok ua, [] =>
          .ok ⟨s, u, f, q, md, ua⟩
      | s, u, f, q, md, ua, ex =>
          .error (fieldErrs s ++ fieldErrs u ++ fieldErrs f ++ fieldErrs q ++
                  fieldErrs md ++ fieldErrs ua ++ ex)
  | other => .error (rootTypeIssue other)

/-- The refine rule of UploadMediaSchema: upload always requires explicit
user authorization. -/
def uploadRefineCheck (u : UploadMediaInput) : Bool :=
  if !u.userAuthorized then false else true

/-- The message/path of UploadMediaSchema's refine failure. -/
def uploadRefineIssue : ZodIssue :=
  ⟨["userAuthorized"],
   "Media upload operations require explicit user authorization (userAuthorized: true)",
   .custom⟩

/-- Full `UploadMediaSchema.parse`. -/
def UploadMediaSchema_parse (j : Json) :
    Except (List ZodIssue) UploadMediaInput :=
  match UploadMediaSchema_parseFields j with
  | .error es => .error es
  | .ok u => if uploadRefineCheck u then .ok u else .error [uploadRefineIssue]

/-- The error message `validateToolInput` throws on a ZodError:
`Validation failed for {tool}:\n` followed by one `path: message` line per
issue (path omitted when empty). -/
def validationFailMessage (toolName : String) (issues : List ZodIssue) :
    String :=
  "Validation failed for " ++ toolName ++ ":\n" ++
    String.intercalate "\n" (issues.map fun i =>
      (if i.path.isEmpty then "" else String.intercalate "." i.path ++ ": ") ++
        i.message)

/-! ### Server registry -/

/-- One entry of the configuration file: `{ api_url, api_key, version? }`. -/
structure ServerEntry where
  api_url : String
  api_key : String
  version : Option String
deriving DecidableEq, Repr

/-- The registry loaded from the configuration file, as an association list
(JS object keys are unique). -/
def Config := List (String × ServerEntry)

/-- `config[serverName]` property lookup. -/
def configLookup : Config → String → Option ServerEntry
  | [], _ => none
  | (k, e) :: rest, name => if k = name then some e else configLookup rest name

/-- `join(homedir(), '.mcp', 'strapi-mcp-server.config.json')`, with the
home directory modelled as `~`. -/
def CONFIG_PATH : String := "~/.mcp/strapi-mcp-server.config.json"

/-- `JSON.stringify(exampleConfig, null, 2)` — the example document embedded
in the no-configuration error. -/
def exampleConfigText : String :=
  "\x7b\n  \"myserver\": \x7b\n    \"api_url\": \"http://localhost:1337\",\n    \"api_key\": \"your-jwt-token-from-strapi-admin\"\n  \x7d\n\x7d"

/-- The message of the empty-registry configuration error. -/
def noConfigMessage : String :=
  "No server configuration found!\n\n" ++
  "Please create a configuration file at:\n" ++
  CONFIG_PATH ++ "\n\n" ++
  "Example configuration:\n" ++
  exampleConfigText ++ "\n\n" ++
  "Steps to set up:\n" ++
  "1. Create the .mcp directory: mkdir -p ~/.mcp\n" ++
  "2. Create the config file: touch ~/.mcp/strapi-mcp-server.config.json\n" ++
  "3. Add your server configuration using the example above\n" ++
  "4. Get your JWT token from Strapi Admin Panel > Settings > API Tokens\n" ++
  "5. Make sure the file permissions are secure: chmod 600 ~/.mcp/strapi-mcp-server.config.json"

/-- The message of the unknown-server configuration error. -/
def unknownServerMessage (serverName : String) (knownNames : List String) :
    String :=
  "Server \"" ++ serverName ++ "\" not found in config.\n\n" ++
  "Available servers: " ++ String.intercalate ", " knownNames ++ "\n\n" ++
  "To add a new server, edit:\n" ++
  CONFIG_PATH ++ "\n\n" ++
  "Example configuration:\n" ++
  "\x7b\n  \"" ++ serverName ++ "\": \x7b\n    \"api_url\": \"http://localhost:1337\",\n    \"api_key\": \"your-jwt-token-from-strapi-admin\"\n  \x7d\n\x7d"

/-- Error codes of the MCP SDK used by this program. -/
inductive ErrorCode where
  | ParseError | InvalidRequest | MethodNotFound | InvalidParams | InternalError
deriving DecidableEq, Repr

/-- The numeric JSON-RPC code. -/
def ErrorCode.num : ErrorCode → Int
  | .ParseError => -32700
  | .InvalidRequest => -32600
  | .MethodNotFound => -32601
  | .InvalidParams => -32602
  | .InternalError => -32603

/-- A thrown error: either an SDK `McpError(code, message)` or a plain JS
`Error(message)` (as thrown by `validateToolInput`). -/
inductive McpErr where
  | mcp (code : ErrorCode) (msg : String)
  | jsError (msg : String)
deriving DecidableEq, Repr

/-- `error.message`: the SDK's McpError constructor prefixes
`MCP error {code}: `; a plain Error keeps its message. -/
def McpErr.message : McpErr → String
  | .mcp c m => "MCP error " ++ toString c.num ++ ": " ++ m
  | .jsError m => m

/-- Resolved connection details (`getServerConfig`'s return value). -/
structure ResolvedServer where
  API_URL : String
  JWT : String
deriving DecidableEq, Repr

/-- `getServerConfig`: empty registry → setup error; unknown name → error
listing known names; otherwise the stored base URL and credential. -/
def getServerConfig (config : Config) (serverName : String) :
    Except McpErr ResolvedServer :=
  if config.length = 0 then
    .error (.mcp .InvalidParams noConfigMessage)
  else
    match configLookup config serverName with
    | none =>
        .error (.mcp .InvalidParams
          (unknownServerMessage serverName (config.map Prod.fst)))
    | some entry => .ok ⟨entry.api_url, entry.api_key⟩

/-! ### Strapi version table (`STRAPI_VERSION_DIFFERENCES`) -/

/-- The per-version information record.  Only the discriminating fields are
carried; the remaining static documentation strings of the source table do not
enter any decision. -/
structure VersionInfo where
  id_field : String
  data_structure : String
deriving DecidableEq, Repr

def strapiV4Info : VersionInfo :=
  ⟨"id", "Uses data wrapper structure"⟩

def strapiV5Info : VersionInfo :=
  ⟨"documentId", "Direct access without wrapper"⟩

/-- Property access `STRAPI_VERSION_DIFFERENCES[majorVersion]`: the table is
keyed by the literal strings `v4` and `v5`. -/
def strapiVersionLookup (majorVersion : String) : Option VersionInfo :=
  if majorVersion = "v4" then some strapiV4Info
  else if majorVersion = "v5" then some strapiV5Info
  else none

/-- `version.split('.')[0]`: the text before the first `.` (the whole string
when there is none). -/
def beforeFirstDot (version : String) : String :=
  String.mk (version.data.takeWhile fun c => c ≠ '.')

/-- The major-version extraction of the `strapi_list_servers` handler:
`*`-containing tags take the text before the first `.`; otherwise a leading
`v` is stripped (`substring(1)`); otherwise the text before the first `.`. -/
def normalizeMajorVersion (version : String) : String :=
  if version.data.contains '*' then beforeFirstDot version
  else
    match version.data with
    | 'v' :: rest => String.mk rest
    | _ => beforeFirstDot version

/-- `serverConfig.version || "v4"` (JS `||`: empty string is falsy). -/
def effectiveVersionTag (version : Option String) : String :=
  match version with
  | none => "v4"
  | some s => if s = "" then "v4" else s

/-- The `version_details` field of a listed server. -/
def versionDetails (version : Option String) : Option VersionInfo :=
  strapiVersionLookup (normalizeMajorVersion (effectiveVersionTag version))

/-- One element of the `servers` array built by `strapi_list_servers`. -/
structure ServerSummary where
  name : String
  api_url : String
  version : Option String
  version_details : Option VersionInfo
deriving DecidableEq, Repr

def mkServerSummary (name : String) (entry : ServerEntry) : ServerSummary :=
  ⟨name, entry.api_url, entry.version, versionDetails entry.version⟩

/-- The two payload shapes the `strapi_list_servers` branch constructs: the
"No servers configured" help object, and the normal success object whose
`user_action_required.available_servers` lists the server names. -/
inductive ListServersPayload where
  | helpPayload (configPath : String)
  | serverList (servers : List ServerSummary) (availableServers : List String)
deriving DecidableEq, Repr

/-- The `strapi_list_servers` branch: when the registry is empty a help
payload is assigned to `result`, but the success payload is then assigned
unconditionally, overwriting it. -/
def listServersResult (config : Config) : Option ListServersPayload :=
  Id.run do
    let mut result : Option ListServersPayload := none
    if config.length = 0 then
      result := some (.helpPayload CONFIG_PATH)
    let servers := config.map fun (name, entry) => mkServerSummary name entry
    result := some (.serverList servers (servers.map ServerSummary.name))
    return result

/-! ### HTTP layer -/

/-- An HTTP response as this program observes it: status, status text, and the
body as JSON when `response.json()` would succeed (`none` when it would
reject).  Transport-level exceptions (DNS, refused connection) are not
modelled; no claim depends on them. -/
structure HttpResponse where
  status : Nat
  statusText : String
  jsonBody : Option Json

/-- `response.ok` of node-fetch: `200 <= status < 300`. -/
def HttpResponse.isOk (r : HttpResponse) : Bool :=
  200 ≤ r.status && r.status < 300

/-- Image bytes flowing through the media pipeline: either raw downloaded
bytes or the output of the external `sharp` transform. -/
inductive ImageBytes where
  | raw (id : Nat)
  | encoded (src : ImageBytes) (format : MediaFormat) (param : Int)
deriving DecidableEq, Repr

/-- The result of fetching a source image (`downloadImage`'s `fetch`). -/
structure ImageFetchResult where
  ok : Bool
  statusText : String
  bytes : ImageBytes

/-- The external HTTP world, as deterministic response functions: one for the
REST dispatcher's `fetch`, one for `makeStrapiRequest`'s GET, one for the
source-image download, one for the multipart upload POST. -/
structure Backend where
  fetchRest : String → String → Option String → HttpResponse
  fetchGet : String → HttpResponse
  imageFetch : String → ImageFetchResult
  uploadPost : String → ImageBytes → String → Option String → HttpResponse

/-- Counts of outbound network calls made while handling one tool call. -/
structure Effects where
  apiCalls : Nat
  imageFetches : Nat
  uploadPosts : Nat
deriving DecidableEq, Repr

def noEffects : Effects := ⟨0, 0, 0⟩

def Effects.add (a b : Effects) : Effects :=
  ⟨a.apiCalls + b.apiCalls, a.imageFetches + b.imageFetches,
   a.uploadPosts + b.uploadPosts⟩

/-- Advisory hint appended to backend error messages by status class. -/
def statusHint (status : Nat) : String :=
  if status = 400 then
    "\nHINT: Check the request structure matches Strapi\x27s expectations. For v4/v5 differences, refer to Strapi\x27s migration guide."
  else if status = 404 then
    "\nHINT: Check the endpoint path and ID are correct."
  else ""

/-- `errorData.error?.message || JSON.stringify(errorData.error)`. -/
def backendErrorDetail (errorData : Json) : String :=
  match errorData.getField "error" with
  | some errVal =>
      match errVal.getField "message" with
      | some m => if m.jsTruthy then m.jsDisplay else jsonStringify errVal
      | none => jsonStringify errVal
  | none => ""

/-- Whether `errorData && typeof errorData === 'object' && 'error' in
errorData` holds for a parsed body. -/
def hasErrorField (j : Json) : Bool :=
  match j with
  | .obj fields => (fields.map Prod.fst).contains "error"
  | _ => false

/-- `handleStrapiError`: 2xx → parse body as JSON → success; otherwise build
`{context} failed with status: {status}`, append the parsed error detail and
status-class hint when the body parses to an object with an `error` key, fall
back to the status text when the body does not parse, and throw
`McpError(InternalError, …)`. -/
def handleStrapiError (response : HttpResponse) (context : String) :
    Except McpErr Json :=
  if response.isOk then
    match response.jsonBody with
    | some j => .ok j
    | none => .error (.jsError "invalid json response body")
  else
    let base := context ++ " failed with status: " ++ toString response.status
    let errorMessage :=
      match response.jsonBody with
      | some errorData =>
          if hasErrorField errorData then
            base ++ " - " ++ backendErrorDetail errorData ++
              statusHint response.status
          else base
      | none => base ++ " - " ++ response.statusText
    .error (.mcp .InternalError errorMessage)

/-! ### Query-string serialization -/

mutual
/-- `qs.stringify` with `encodeValuesOnly: true`, as `key=value` pairs using
nested-bracket keys.  Percent-encoding of values is not modelled; no claim
depends on the encoded bytes. -/
def qsSerialize (key : String) : Json → List String
  | .null => [key ++ "="]
  | .bool b => [key ++ "=" ++ (if b then "true" else "false")]
  | .num n => [key ++ "=" ++ toString n]
  | .str s => [key ++ "=" ++ s]
  | .arr xs => qsSerializeArr key 0 xs
  | .obj fs => qsSerializeObj key fs

def qsSerializeArr (key : String) (i : Nat) : List Json → List String
  | [] => []
  | x :: xs =>
      qsSerialize (key ++ "[" ++ toString i ++ "]") x ++
        qsSerializeArr key (i + 1) xs

def qsSerializeObj (key : String) : List (String × Json) → List String
  | [] => []
  | (k, v) :: fs => qsSerialize (key ++ "[" ++ k ++ "]") v ++ qsSerializeObj key fs
end

/-- Top-level keys carry no brackets. -/
def qsSerializeTop : List (String × Json) → List String
  | [] => []
  | (k, v) :: fs => qsSerialize k v ++ qsSerializeTop fs

/-- `qs.stringify(params, { encodeValuesOnly: true })`; a non-object
serializes to the empty string. -/
def qsStringify : Json → String
  | .obj fs => String.intercalate "&" (qsSerializeTop fs)
  | _ => ""

/-! ### Dispatch -/

/-- `makeStrapiRequest`: resolve the server, build the URL with
URLSearchParams-encoded flat parameters, issue one GET, normalize the
response.  (URLSearchParams percent-encoding is not modelled.) -/
def makeStrapiRequest (config : Config) (b : Backend) (serverName endpoint : String)
    (params : Option (List (String × String))) :
    Except McpErr Json × Effects :=
  match getServerConfig config serverName with
  | .error e => (.error e, noEffects)
  | .ok serverConfig =>
      let url := serverConfig.API_URL ++ endpoint
      let url :=
        match params with
        | some ps =>
            url ++ "?" ++
              String.intercalate "&" (ps.map fun (k, v) => k ++ "=" ++ v)
        | none => url
      let response := b.fetchGet url
      (handleStrapiError response ("Request to " ++ endpoint), ⟨1, 0, 0⟩)

/-- The authorization-failure message `makeRestRequest` throws for a write
method without explicit user authorization. -/
def restAuthMessage (method : Method) : String :=
  "AUTHORIZATION REQUIRED: " ++ method.str ++
  " operations require explicit user authorization.\n\n" ++
  "IMPORTANT: The client MUST:\n" ++
  "1. Ask the user for explicit permission before making this request\n" ++
  "2. Show the user exactly what data will be modified\n" ++
  "3. Receive clear confirmation from the user\n" ++
  "4. Set userAuthorized=true when making the request\n\n" ++
  "This is a security measure to prevent unauthorized data modifications."

/-- `makeRestRequest`: reject unauthorized writes before anything else, then
resolve the server, build the URL (qs-encoded params), attach a JSON body only
for POST/PUT, issue exactly one request and normalize the response. -/
def makeRestRequest (config : Config) (b : Backend) (serverName endpoint : String)
    (method : Method) (params body : Option Json) (userAuthorized : Bool) :
    Except McpErr Json × Effects :=
  if isWriteMethod method && !userAuthorized then
    (.error (.mcp .InvalidParams (restAuthMessage method)), noEffects)
  else
    match getServerConfig config serverName with
    | .error e => (.error e, noEffects)
    | .ok serverConfig =>
        let url := serverConfig.API_URL ++ "/" ++ endpoint
        let url :=
          match params with
          | some p =>
              let queryStr := qsStringify p
              if queryStr = "" then url else url ++ "?" ++ queryStr
          | none => url
        let bodyStr : Option String :=
          match body, method with
          | some bj, .POST => some (jsonStringify bj)
          | some bj, .PUT => some (jsonStringify bj)
          | _, _ => none
        let response := b.fetchRest url method.str bodyStr
        (handleStrapiError response ("REST request to " ++ endpoint), ⟨1, 0, 0⟩)

/-! ### Media pipeline -/

/-- `processImage`: `original` leaves the bytes unchanged (the sharp identity
round-trip is modelled as identity); otherwise the external transform is
applied with the effective quality parameter (`png` uses
`Math.floor((100 - quality) / 100 * 9)` as compression level). -/
def processImage (buffer : ImageBytes) (format : MediaFormat) (quality : Int) :
    ImageBytes :=
  match format with
  | .original => buffer
  | .jpeg => .encoded buffer .jpeg quality
  | .png => .encoded buffer .png (((100 - quality) * 9) / 100)
  | .webp => .encoded buffer .webp quality

/-- `fileName.replace(/\.[^/.]+$/, '')`: strip a final dot-extension whose
characters contain neither `.` nor `/`. -/
def stripLastExt (s : String) : String :=
  let rev := s.data.reverse
  let ext := rev.takeWhile fun c => c ≠ '.' ∧ c ≠ '/'
  match rev.drop ext.length with
  | '.' :: rest => if ext.isEmpty then s else String.mk rest.reverse
  | _ => s

/-- The authorization-failure message `uploadMedia` throws. -/
def uploadAuthMessage : String :=
  "AUTHORIZATION REQUIRED: Media upload operations require explicit user authorization.\n\n" ++
  "IMPORTANT: The client MUST:\n" ++
  "1. Ask the user for explicit permission before uploading this media\n" ++
  "2. Show the user what media will be uploaded\n" ++
  "3. Receive clear confirmation from the user\n" ++
  "4. Set userAuthorized=true when making the request\n\n" ++
  "This is a security measure to prevent unauthorized uploads."

/-- `uploadMedia`: reject without explicit user authorization, then resolve
the server, rewrite the filename extension for converted formats, POST the
multipart form to `/api/upload` and normalize the response.  The metadata, if
present, travels as a JSON-encoded `fileInfo` part. -/
def uploadMedia (config : Config) (b : Backend) (serverName : String)
    (imageBuffer : ImageBytes) (fileName : String) (format : MediaFormat)
    (metadata : Option MediaMetadata) (userAuthorized : Bool) :
    Except McpErr Json × Effects :=
  if !userAuthorized then
    (.error (.mcp .InvalidParams uploadAuthMessage), noEffects)
  else
    match getServerConfig config serverName with
    | .error e => (.error e, noEffects)
    | .ok serverConfig =>
        let fileName :=
          if format ≠ .original then stripLastExt fileName ++ "." ++ format.str
          else fileName
        let metadataStr := metadata.map fun md =>
          jsonStringify (.obj
            ((match md.name with | some n => [("name", Json.str n)] | none => []) ++
             (match md.caption with | some c => [("caption", Json.str c)] | none => []) ++
             (match md.alternativeText with
              | some a => [("alternativeText", Json.str a)] | none => []) ++
             (match md.description with
              | some d => [("description", Json.str d)] | none => [])))
        let url := serverConfig.API_URL ++ "/api/upload"
        let response := b.uploadPost url imageBuffer fileName metadataStr
        (handleStrapiError response "Media upload", ⟨0, 0, 1⟩)

/-! ### Pagination of `strapi_get_components` -/

/-- `Math.ceil(n / d)` for a non-negative numerator and the positive divisor
guaranteed by validation (any non-positive divisor is mapped to 0; it cannot
occur). -/
def intCeilDiv (n : Nat) (d : Int) : Int :=
  if d ≤ 0 then 0 else ((n + d.toNat - 1) / d.toNat : Nat)

/-- `.length` of a JS value: defined for arrays (and strings), `undefined`
otherwise. -/
def Json.jsLength : Json → Option Nat
  | .arr xs => some xs.length
  | .str s => some s.length
  | _ => none

/-- The pagination metadata the `strapi_get_components` handler attaches:
`total` is the length of the backend response, `pageCount` is
`Math.ceil(total / pageSize)` (both `undefined` when the response has no
`.length`). -/
structure Pagination where
  page : Int
  pageSize : Int
  total : Option Nat
  pageCount : Option Int
deriving DecidableEq, Repr

def componentsPagination (page pageSize : Int) (data : Json) : Pagination :=
  ⟨page, pageSize, data.jsLength,
   data.jsLength.map fun n => intCeilDiv n pageSize⟩

/-! ### The tool-call handler -/

/-- The structured content of a successful tool response.  The handler
serializes these payloads to text with `JSON.stringify(…, null, 2)`; the
rendering is injective and not modelled.  Static usage-guide annotations
(`usage_guide`, `image_info`, …) carry no decision logic and are omitted. -/
inductive ResponsePayload where
  | listServers (payload : Option ListServersPayload)
  | contentTypes (data : Json)
  | components (data : Json) (pagination : Pagination)
  | rest (data : Json)
  | upload (data : Json)

/-- A protocol response: success content, or the `Error: {message}` text the
outer catch block produces from a thrown error. -/
inductive ToolResponse where
  | success (payload : ResponsePayload)
  | errorText (text : String)

/-- The `CallToolRequestSchema` handler: validate by tool name, dispatch, and
convert any thrown error into an `Error: …` text response.  An unknown tool
name throws `McpError(MethodNotFound, "Unknown tool: {name}")` and touches no
network. -/
def callToolHandler (config : Config) (b : Backend) (name : String)
    (args : Json) : ToolResponse × Effects :=
  let step : Except McpErr ResponsePayload × Effects :=
    if name = "strapi_list_servers" then
      match ListServersSchema_parse args with
      | .error issues =>
          (.error (.jsError (validationFailMessage "strapi_list_servers" issues)),
           noEffects)
      | .ok _ => (.ok (.listServers (listServersResult config)), noEffects)
    else if name = "strapi_get_content_types" then
      match GetContentTypesSchema_parse args with
      | .error issues =>
          (.error (.jsError (validationFailMessage "strapi_get_content_types" issues)),
           noEffects)
      | .ok input =>
          let (data, eff) := makeStrapiRequest config b input.server
            "/api/content-type-builder/content-types" none
          match data with
          | .ok d => (.ok (.contentTypes d), eff)
          | .error e => (.error e, eff)
    else if name = "strapi_get_components" then
      match GetComponentsSchema_parse args with
      | .error issues =>
          (.error (.jsError (validationFailMessage "strapi_get_components" issues)),
           noEffects)
      | .ok input =>
          let params := [("pagination[page]", toString input.page),
                         ("pagination[pageSize]", toString input.pageSize)]
          let (data, eff) := makeStrapiRequest config b input.server
            "/api/content-type-builder/components" (some params)
          match data with
          | .ok d =>
              (.ok (.components d (componentsPagination input.page input.pageSize d)),
               eff)
          | .error e => (.error e, eff)
    else if name = "strapi_rest" then
      match RestSchema_parse args with
      | .error issues =>
          (.error (.jsError (validationFailMessage "strapi_rest" issues)), noEffects)
      | .ok input =>
          let (data, eff) := makeRestRequest config b input.server input.endpoint
            input.method input.params input.body input.userAuthorized
          match data with
          | .ok d => (.ok (.rest d), eff)
          | .error e => (.error e, eff)
    else if name = "strapi_upload_media" then
      match UploadMediaSchema_parse args with
      | .error issues =>
          (.error (.jsError (validationFailMessage "strapi_upload_media" issues)),
           noEffects)
      | .ok input =>
          -- Extract filename from URL: `url.split('/').pop() || 'image'`
          let fileName0 := (splitOnChar '/' input.url).getLastD ""
          let fileName := if fileName0 = "" then "image" else fileName0
          -- Download the image
          let fetched := b.imageFetch input.url
          if fetched.ok then
            let processedBuffer := processImage fetched.bytes input.format input.quality
            let (data, upEff) := uploadMedia config b input.server processedBuffer
              fileName input.format input.metadata input.userAuthorized
            match data with
            | .ok d =>
                -- the response additionally dereferences data[0]; a non-array
                -- body would throw a TypeError caught by the outer handler
                (match d with
                 | .arr (_ :: _) => (.ok (.upload d), Effects.add ⟨0, 1, 0⟩ upEff)
                 | _ =>
                     (.error (.jsError "Cannot read properties of undefined"),
                      Effects.add ⟨0, 1, 0⟩ upEff))
            | .error e => (.error e, Effects.add ⟨0, 1, 0⟩ upEff)
          else
            (.error (.mcp .InternalError
                ("Failed to download image: " ++ fetched.statusText)),
             ⟨0, 1, 0⟩)
    else
      (.error (.mcp .MethodNotFound ("Unknown tool: " ++ name)), noEffects)
  match step with
  | (.ok payload, eff) => (.success payload, eff)
  | (.error e, eff) => (.errorText ("Error: " ++ e.message), eff)

/-! ### Concrete fixtures used by witnesses -/

/-- A backend whose every endpoint answers 200 with a null JSON body. -/
def trivialBackend : Backend :=
  ⟨fun _ _ _ => ⟨200, "OK", some .null⟩,
   fun _ => ⟨200, "OK", some .null⟩,
   fun _ => ⟨true, "OK", .raw 0⟩,
   fun _ _ _ _ => ⟨200, "OK", some .null⟩⟩

/-- A one-server registry fixture. -/
def demoConfig : Config := [("prod", ⟨"https://x.test", "t1", none⟩)]

/-- A backend whose component-listing endpoint answers 200 with a 35-element
array. -/
def componentsBackend35 : Backend :=
  ⟨fun _ _ _ => ⟨200, "OK", some .null⟩,
   fun _ => ⟨200, "OK", some (.arr (List.replicate 35 .null))⟩,
   fun _ => ⟨true, "OK", .raw 0⟩,
   fun _ _ _ _ => ⟨200, "OK", some .null⟩⟩

/-- A backend that answers every request with 404 and a Strapi-style error
body. -/
def backend404 : Backend :=
  ⟨fun _ _ _ => ⟨404, "Not Found",
      some (.obj [("error", .obj [("message", .str "Not Found")])])⟩,
   fun _ => ⟨404, "Not Found", none⟩,
   fun _ => ⟨false, "Not Found", .raw 0⟩,
   fun _ _ _ _ => ⟨404, "Not Found", none⟩⟩

/-! ### Claims -/

set_option maxRecDepth 8000 in
/-- C4: server-registry resolution.  On an empty registry, `getServerConfig`
produces a configuration error whose message contains the configuration file
path and an example configuration document; on a non-empty registry with an
unknown name it produces a configuration error listing the known server names;
otherwise it returns the stored base URL and credential. -/
theorem getServerConfig_resolution (config : Config) (name : String) :
    (config = [] →
      ∃ pre mid post, getServerConfig config name =
        .error (.mcp .InvalidParams
          (pre ++ CONFIG_PATH ++ mid ++ exampleConfigText ++ post)))
  ∧ (config ≠ [] → configLookup config name = none →
      ∃ pre post, getServerConfig config name =
        .error (.mcp .InvalidParams
          (pre ++ String.intercalate ", " (config.map Prod.fst) ++ post)))
  ∧ (∀ entry, configLookup config name = some entry →
      getServerConfig config name = .ok ⟨entry.api_url, entry.api_key⟩) := by
  refine ⟨?_, ?_, ?_⟩
  · rintro rfl
    exact ⟨"No server configuration found!\n\nPlease create a configuration file at:\n",
      "\n\nExample configuration:\n",
      "\n\nSteps to set up:\n1. Create the .mcp directory: mkdir -p ~/.mcp\n2. Create the config file: touch ~/.mcp/strapi-mcp-server.config.json\n3. Add your server configuration using the example above\n4. Get your JWT token from Strapi Admin Panel > Settings > API Tokens\n5. Make sure the file permissions are secure: chmod 600 ~/.mcp/strapi-mcp-server.config.json",
      rfl⟩
  · intro hne hlookup
    refine ⟨"Server \"" ++ name ++ "\" not found in config.\n\nAvailable servers: ",
      "\n\nTo add a new server, edit:\n" ++ CONFIG_PATH ++
        "\n\nExample configuration:\n\x7b\n  \"" ++ name ++
        "\": \x7b\n    \"api_url\": \"http://localhost:1337\",\n    \"api_key\": \"your-jwt-token-from-strapi-admin\"\n  \x7d\n\x7d",
      ?_⟩
    have hlen : config.length ≠ 0 := by
      simpa [List.length_eq_zero] using hne
    simp [getServerConfig, hlen, hlookup, unknownServerMessage,
      String.append_assoc]
  · intro entry hlookup
    have hlen : config.length ≠ 0 := by
      intro h
      rw [List.length_eq_zero] at h
      subst h
      simp [configLookup] at hlookup
    simp [getServerConfig, hlen, hlookup]

/-- C4 witness: the three resolution cases at concrete inputs. -/
theorem getServerConfig_resolution_witness :
    (∃ pre mid post, getServerConfig [] "prod" =
      .error (.mcp .InvalidParams
        (pre ++ CONFIG_PATH ++ mid ++ exampleConfigText ++ post)))
  ∧ (∃ pre post, getServerConfig demoConfig "dev" =
      .error (.mcp .InvalidParams
        (pre ++ String.intercalate ", " (demoConfig.map Prod.fst) ++ post)))
  ∧ getServerConfig demoConfig "prod" = .ok ⟨"https://x.test", "t1"⟩ :=
  ⟨(getServerConfig_resolution [] "prod").1 rfl,
   (getServerConfig_resolution demoConfig "dev").2.1 (by simp [demoConfig]) rfl,
   (getServerConfig_resolution demoConfig "prod").2.2 ⟨"https://x.test", "t1", none⟩ rfl⟩

/-- C3: any tool name outside the five-tool catalog makes the handler return
the unknown-tool error response, with zero outbound network calls. -/
theorem unknown_tool_rejected (config : Config) (b : Backend) (name : String)
    (args : Json)
    (h1 : name ≠ "strapi_list_servers")
    (h2 : name ≠ "strapi_get_content_types")
    (h3 : name ≠ "strapi_get_components")
    (h4 : name ≠ "strapi_rest")
    (h5 : name ≠ "strapi_upload_media") :
    callToolHandler config b name args =
      (.errorText ("Error: MCP error -32601: Unknown tool: " ++ name),
       noEffects) := by
  simp only [callToolHandler, if_neg h1, if_neg h2, if_neg h3, if_neg h4,
    if_neg h5]
  rfl

/-- C3 witness: the unknown tool name `strapi_graphql`. -/
theorem unknown_tool_rejected_witness :
    callToolHandler [] trivialBackend "strapi_graphql" .null =
      (.errorText "Error: MCP error -32601: Unknown tool: strapi_graphql",
       noEffects) :=
  unknown_tool_rejected [] trivialBackend "strapi_graphql" .null
    (by decide) (by decide) (by decide) (by decide) (by decide)

/-- C6: for `method = GET`, the REST dispatch outcome (and its network trace)
is identical whether `userAuthorized` is false or true, and the validation-time
refine rule accepts the request for either value: authorization is never
checked for GET. -/
theorem rest_get_independent_of_authorization (config : Config) (b : Backend)
    (server endpoint : String) (params body : Option Json) :
    makeRestRequest config b server endpoint .GET params body false =
      makeRestRequest config b server endpoint .GET params body true
  ∧ restRefineCheck ⟨server, endpoint, .GET, params, body, false⟩ = true
  ∧ restRefineCheck ⟨server, endpoint, .GET, params, body, true⟩ = true :=
  ⟨rfl, rfl, rfl⟩

/-- C10: on an empty registry the list-servers branch does not return the
"No servers configured" help payload: it is overwritten by the unconditional
success payload, which then carries an empty `servers` array and an empty
`available_servers` list; in fact every registry produces the success shape. -/
theorem listServers_empty_registry_overwritten :
    listServersResult [] = some (.serverList [] [])
  ∧ (∀ config : Config, ∃ servers availableServers,
      listServersResult config = some (.serverList servers availableServers))
  ∧ callToolHandler [] trivialBackend "strapi_list_servers" (.obj []) =
      (.success (.listServers (some (.serverList [] []))), noEffects) := by
  refine ⟨rfl, ?_, rfl⟩
  intro config
  refine ⟨config.map fun x => mkServerSummary x.1 x.2,
    (config.map fun x => mkServerSummary x.1 x.2).map ServerSummary.name, ?_⟩
  by_cases h : config.length = 0 <;>
    simp [listServersResult, h, Id.run]

/-- C9 counterexample: a configured server whose version tag is `v4.*` gets a
*defined* `version_details` — the `*` branch takes the text before the first
`.`, which is the literal `v4` and does match the table key — refuting the
claim that the lookup never matches for any version tag. -/
theorem listServers_version_details_counterexample :
    (mkServerSummary "myserver"
      ⟨"http://localhost:1337", "jwt", some "v4.*"⟩).version_details =
      some strapiV4Info := rfl

/-- C9 (amended): `version_details` is defined exactly when the normalized
tag is the literal string `v4` or `v5` — which the normalization produces only
for unusual tags such as `v4.*` — and for every documented tag format
(`v4`, `v5`, bare major number, `N.*`, dotted `N.x.y`, or the `v4` default)
the normalization yields a bare digit string, the lookup misses, and
`version_details` is undefined. -/
theorem listServers_version_details_amended :
    (∀ version : Option String,
      (versionDetails version).isSome = true ↔
        (normalizeMajorVersion (effectiveVersionTag version) = "v4" ∨
         normalizeMajorVersion (effectiveVersionTag version) = "v5"))
  ∧ versionDetails none = none
  ∧ versionDetails (some "v4") = none
  ∧ versionDetails (some "v5") = none
  ∧ versionDetails (some "4") = none
  ∧ versionDetails (some "5") = none
  ∧ versionDetails (some "4.1.5") = none
  ∧ versionDetails (some "5.*") = none
  ∧ versionDetails (some "4.*") = none := by
  refine ⟨?_, rfl, rfl, rfl, rfl, rfl, rfl, rfl, rfl⟩
  intro version
  by_cases h4 : normalizeMajorVersion (effectiveVersionTag version) = "v4" <;>
    by_cases h5 : normalizeMajorVersion (effectiveVersionTag version) = "v5" <;>
      simp [versionDetails, strapiVersionLookup, h4, h5]

/-- C1: a REST call whose fields parse to a write method (POST/PUT/DELETE)
without explicit user authorization is rejected by the cross-field refine rule
at validation time — the sole reported issue sits at field path
`userAuthorized` — and the handler returns that validation error with zero
outbound network calls, never reaching the dispatcher's later check. -/
theorem rest_write_unauthorized_rejected (config : Config) (b : Backend)
    (args : Json) (r : RestInput)
    (hparse : RestSchema_parseFields args = .ok r)
    (hwrite : isWriteMethod r.method = true)
    (hauth : r.userAuthorized = false) :
    RestSchema_parse args = .error [restRefineIssue]
  ∧ callToolHandler config b "strapi_rest" args =
      (.errorText ("Error: " ++
        validationFailMessage "strapi_rest" [restRefineIssue]), noEffects) := by
  have hval : RestSchema_parse args = .error [restRefineIssue] := by
    simp [RestSchema_parse, hparse, restRefineCheck, hwrite, hauth]
  refine ⟨hval, ?_⟩
  simp only [callToolHandler]
  rw [if_neg (by decide), if_neg (by decide), if_neg (by decide)]
  simp [hval, McpErr.message]

/-- C1 witness: `{server: "s", endpoint: "api/articles", method: "POST"}`
(with `userAuthorized` defaulting to false). -/
theorem rest_write_unauthorized_rejected_witness :
    RestSchema_parse
      (.obj [("server", .str "s"), ("endpoint", .str "api/articles"),
             ("method", .str "POST")]) = .error [restRefineIssue]
  ∧ callToolHandler [] trivialBackend "strapi_rest"
      (.obj [("server", .str "s"), ("endpoint", .str "api/articles"),
             ("method", .str "POST")]) =
      (.errorText ("Error: " ++
        validationFailMessage "strapi_rest" [restRefineIssue]), noEffects) :=
  rest_write_unauthorized_rejected [] trivialBackend
    (.obj [("server", .str "s"), ("endpoint", .str "api/articles"),
           ("method", .str "POST")])
    ⟨"s", "api/articles", .POST, none, none, false⟩ rfl rfl rfl

/-- C2: an upload-media call whose fields parse without explicit user
authorization is rejected by the refine rule at validation time (issue at
field path `userAuthorized`), and the handler returns that validation error
with zero outbound calls — neither the source-image fetch nor the upload POST
happens. -/
theorem upload_unauthorized_rejected_before_fetch (config : Config)
    (b : Backend) (args : Json) (u : UploadMediaInput)
    (hparse : UploadMediaSchema_parseFields args = .ok u)
    (hauth : u.userAuthorized = false) :
    UploadMediaSchema_parse args = .error [uploadRefineIssue]
  ∧ callToolHandler config b "strapi_upload_media" args =
      (.errorText ("Error: " ++
        validationFailMessage "strapi_upload_media" [uploadRefineIssue]),
       noEffects) := by
  have hval : UploadMediaSchema_parse args = .error [uploadRefineIssue] := by
    simp [UploadMediaSchema_parse, hparse, uploadRefineCheck, hauth]
  refine ⟨hval, ?_⟩
  simp only [callToolHandler]
  rw [if_neg (by decide), if_neg (by decide), if_neg (by decide),
    if_neg (by decide)]
  simp [hval, McpErr.message]

/-- C2 witness: `{server: "s", url: "https://example.com/a.jpg"}` (with
`userAuthorized` defaulting to false). -/
theorem upload_unauthorized_rejected_before_fetch_witness :
    UploadMediaSchema_parse
      (.obj [("server", .str "s"), ("url", .str "https://example.com/a.jpg")]) =
      .error [uploadRefineIssue]
  ∧ callToolHandler [] trivialBackend "strapi_upload_media"
      (.obj [("server", .str "s"), ("url", .str "https://example.com/a.jpg")]) =
      (.errorText ("Error: " ++
        validationFailMessage "strapi_upload_media" [uploadRefineIssue]),
       noEffects) :=
  upload_unauthorized_rejected_before_fetch [] trivialBackend
    (.obj [("server", .str "s"), ("url", .str "https://example.com/a.jpg")])
    ⟨"s", "https://example.com/a.jpg", .original, 80, none, false⟩ rfl rfl

/-- C7: validation coercion for GetComponents.  `{server: "x", page: "3"}`
validates with `page` coerced to the integer 3 and `pageSize` defaulted to 25;
`{page: "abc"}` fails validation and its issue list contains a `custom`-coded
"Page must be a positive integer" diagnostic at field path `page` (alongside
the missing-`server` issue).  The remaining schema defaults are applied as
part of successful validation: `method` defaults to GET, `format` to
`original`, `quality` to 80 and `userAuthorized` to false. -/
theorem getComponents_validation_coercion :
    GetComponentsSchema_parse (.obj [("server", .str "x"), ("page", .str "3")]) =
      .ok ⟨"x", 3, 25⟩
  ∧ GetComponentsSchema_parse (.obj [("page", .str "abc")]) =
      .error [⟨["server"], "Required", .invalid_type⟩,
              ⟨["page"], "Page must be a positive integer", .custom⟩]
  ∧ (⟨["page"], "Page must be a positive integer", .custom⟩ : ZodIssue) ∈
      fieldErrs (GetComponentsSchema_parse (.obj [("page", .str "abc")]))
  ∧ RestSchema_parse
      (.obj [("server", .str "s"), ("endpoint", .str "api/articles")]) =
      .ok ⟨"s", "api/articles", .GET, none, none, false⟩
  ∧ UploadMediaSchema_parseFields
      (.obj [("server", .str "s"), ("url", .str "https://example.com/a.jpg")]) =
      .ok ⟨"s", "https://example.com/a.jpg", .original, 80, none, false⟩ := by
  refine ⟨rfl, rfl, ?_, rfl, rfl⟩
  show _ ∈ ([⟨["server"], "Required", .invalid_type⟩,
             ⟨["page"], "Page must be a positive integer", .custom⟩] : List ZodIssue)
  simp

/-- C5: `strapi_get_components` pagination.  For any array response the
attached metadata takes `total` as the array length and `pageCount` as
`intCeilDiv total pageSize`; `intCeilDiv` is exactly the rational ceiling of
the division for the positive page sizes validation guarantees; and the
concrete round trip (page 2, pageSize 10, 35-item mocked backend) returns
`{page: 2, pageSize: 10, total: 35, pageCount: 4}`. -/
theorem getComponents_pagination_roundtrip :
    (∀ (page pageSize : Int) (xs : List Json),
      componentsPagination page pageSize (.arr xs) =
        ⟨page, pageSize, some xs.length, some (intCeilDiv xs.length pageSize)⟩)
  ∧ (∀ (n : Nat) (d : Int), 0 < d →
      (intCeilDiv n d : Int) = ⌈(n : ℚ) / (d : ℚ)⌉)
  ∧ callToolHandler demoConfig componentsBackend35 "strapi_get_components"
      (.obj [("server", .str "prod"), ("page", .num 2), ("pageSize", .num 10)]) =
      (.success (.components (.arr (List.replicate 35 .null))
        ⟨2, 10, some 35, some 4⟩), ⟨1, 0, 0⟩) := by
  refine ⟨fun _ _ _ => rfl, ?_, rfl⟩
  intro n d hd
  have hdk : ((d.toNat : Int)) = d := Int.toNat_of_nonneg hd.le
  unfold intCeilDiv
  rw [if_neg (by omega)]
  set k := d.toNat with hkdef
  have hk0 : 0 < k := by omega
  have hdq : (0 : ℚ) < (d : ℚ) := by exact_mod_cast hd
  have hkq : ((k : ℚ)) = (d : ℚ) := by exact_mod_cast hdk
  have h1 := Nat.div_add_mod (n + k - 1) k
  have h2 := Nat.mod_lt (n + k - 1) hk0
  set a := n + k - 1 with hadef
  set q := a / k with hqdef
  set r := a % k with hrdef
  set t := k * q with htdef
  have hub : n ≤ t := by omega
  have hlb : t + 1 ≤ n + k := by omega
  have htq : (t : ℚ) = (k : ℚ) * (q : ℚ) := by exact_mod_cast htdef
  symm
  rw [Int.ceil_eq_iff]
  constructor
  · push_cast
    rw [lt_div_iff₀ hdq]
    have hlbq : (t : ℚ) + 1 ≤ (n : ℚ) + (k : ℚ) := by exact_mod_cast hlb
    have : ((q : ℚ) - 1) * (d : ℚ) = (t : ℚ) - (k : ℚ) := by
      rw [htq, ← hkq]; ring
    rw [this]
    linarith
  · push_cast
    rw [div_le_iff₀ hdq]
    have hubq : (n : ℚ) ≤ (t : ℚ) := by exact_mod_cast hub
    have : (q : ℚ) * (d : ℚ) = (t : ℚ) := by rw [htq, ← hkq]; ring
    rw [this]
    exact hubq

/-- C5 witness: the ceiling identity at the scenario's values. -/
theorem getComponents_pagination_roundtrip_witness :
    (intCeilDiv 35 10 : Int) = ⌈(35 : ℚ) / ((10 : Int) : ℚ)⌉ :=
  getComponents_pagination_roundtrip.2.1 35 10 (by norm_num)

/-- C8: backend response normalization.  A 2xx status returns the JSON body
as the success payload; a status ≥ 400 yields a backend failure whose message
starts with `{context} failed with status: {status}`; an unparseable error
body falls back to the status line text; and the concrete authorized DELETE
against a 404 backend yields a failure whose message contains `404`. -/
theorem handleStrapiError_normalization (resp : HttpResponse)
    (context : String) :
    (∀ j, 200 ≤ resp.status → resp.status < 299 → resp.jsonBody = some j →
      handleStrapiError resp context = .ok j)
  ∧ (400 ≤ resp.status →
      ∃ post, handleStrapiError resp context =
        .error (.mcp .InternalError
          (context ++ " failed with status: " ++ toString resp.status ++ post)))
  ∧ (¬ (200 ≤ resp.status ∧ resp.status < 300) → resp.jsonBody = none →
      handleStrapiError resp context =
        .error (.mcp .InternalError
          (context ++ " failed with status: " ++ toString resp.status ++
            (" - " ++ resp.statusText))))
  ∧ makeRestRequest demoConfig backend404 "prod" "api/articles/1" .DELETE
      none none true =
      (.error (.mcp .InternalError
        "REST request to api/articles/1 failed with status: 404 - Not Found\nHINT: Check the endpoint path and ID are correct."),
       ⟨1, 0, 0⟩)
  ∧ (∃ pre post,
      ("REST request to api/articles/1 failed with status: 404 - Not Found\nHINT: Check the endpoint path and ID are correct." : String) =
        pre ++ "404" ++ post) := by
  refine ⟨?_, ?_, ?_, rfl,
    ⟨"REST request to api/articles/1 failed with status: ",
     " - Not Found\nHINT: Check the endpoint path and ID are correct.", rfl⟩⟩
  · intro j h1 h2 hb
    have hok : resp.isOk = true := by
      unfold HttpResponse.isOk
      simp only [Bool.and_eq_true, decide_eq_true_eq]
      omega
    simp [handleStrapiError, hok, hb]
  · intro h400
    have hok : resp.isOk = false := by
      cases hcase : resp.isOk with
      | false => rfl
      | true =>
          exfalso
          unfold HttpResponse.isOk at hcase
          simp only [Bool.and_eq_true, decide_eq_true_eq] at hcase
          omega
    cases hb : resp.jsonBody with
    | none =>
        exact ⟨" - " ++ resp.statusText,
          by simp [handleStrapiError, hok, hb, String.append_assoc]⟩
    | some errorData =>
        by_cases he : hasErrorField errorData = true
        · exact ⟨" - " ++ (backendErrorDetail errorData ++ statusHint resp.status),
            by simp [handleStrapiError, hok, hb, he, String.append_assoc]⟩
        · exact ⟨"", by simp [handleStrapiError, hok, hb, he]⟩
  · intro hnot hb
    have hok : resp.isOk = false := by
      cases hcase : resp.isOk with
      | false => rfl
      | true =>
          exfalso
          unfold HttpResponse.isOk at hcase
          simp only [Bool.and_eq_true, decide_eq_true_eq] at hcase
          omega
    simp [handleStrapiError, hok, hb, String.append_assoc]

/-- C8 witness: the status classes at concrete responses. -/
theorem handleStrapiError_normalization_witness :
    handleStrapiError ⟨200, "OK", some .null⟩ "Request to /x" = .ok .null
  ∧ (∃ post, handleStrapiError ⟨500, "Internal Server Error", none⟩ "Request to /x" =
      .error (.mcp .InternalError
        ("Request to /x" ++ " failed with status: " ++ toString (500 : Nat) ++ post)))
  ∧ handleStrapiError ⟨301, "Moved Permanently", none⟩ "Request to /x" =
      .error (.mcp .InternalError
        ("Request to /x" ++ " failed with status: " ++ toString (301 : Nat) ++
          (" - " ++ "Moved Permanently"))) :=
  ⟨(handleStrapiError_normalization ⟨200, "OK", some .null⟩ "Request to /x").1
      .null (by decide) (by decide) rfl,
   (handleStrapiError_normalization ⟨500, "Internal Server Error", none⟩
      "Request to /x").2.1 (by decide),
   (handleStrapiError_normalization ⟨301, "Moved Permanently", none⟩
      "Request to /x").2.2.1 (by decide) rfl⟩
